import Mathlib

/-!
Shallow embedding of the Comcast/go-log logging package (package `log`,
files device.go, log.go, log_calls.go, logger.go, safe_buffer.go and the
uplevel-logger file), together with theorems checking its natural-language
specification.  Go machinery that the package merely consumes (the clock,
the process id, the goroutine stack inspected by runtime.Caller and
runtime.Callers, fmt.Sprintf rendering of variadic arguments, and
encoding/json marshalling) is passed in as explicit parameters; everything
that the package itself computes is transcribed from the source.
-/

namespace GoLog

/-- Constant emptyMessage from log.go. -/
def emptyMessage : String := "**** LOG ERROR: MESSAGE IS EMPTY - PLEASE REPORT ****\n"

/-- Constant LoggingWasOff from log.go. -/
def LoggingWasOff : String := "**** LOG WARNING: LOGGING WAS OFF - PLEASE REPORT ****\n"

/-- The fixed timestamp returned by dtFile in test mode:
time.Date(2009, November, 10, 15, 0, 0, 0, UTC) rendered with layout
"2006/01/02 15:04:05.000". -/
def testDateTime : String := "2009/11/10 15:00:00.000"

/-- An io.Writer destination.  os.Stderr and os.Stdout are the two
distinguished process streams; custom writers are numbered. -/
inductive Sink where
  | stderr
  | stdout
  | custom (n : Nat)
deriving DecidableEq, Repr

/-- Device constants from device.go (int8 iota order). -/
def DevAll : Nat := 0

/-- Device constant DevStart. -/
def DevStart : Nat := 1

/-- Device constant DevError. -/
def DevError : Nat := 2

/-- Device constant DevPanic. -/
def DevPanic : Nat := 3

/-- Device constant DevTrace. -/
def DevTrace : Nat := 4

/-- Device constant DevWarning. -/
def DevWarning : Nat := 5

/-- Device constant DevQuery. -/
def DevQuery : Nat := 6

/-- Device constant DevData. -/
def DevData : Nat := 7

/-- Device constant DevSplunk. -/
def DevSplunk : Nat := 8

/-- A single map assignment l.dest[k] = w. -/
def updDest (dest : Nat → Option Sink) (k : Nat) (w : Sink) : Nat → Option Sink :=
  fun d => if d = k then some w else dest d

/-- Transcription of Dev.All from device.go: eight individual assignments,
one per concrete device, under one write-lock acquisition.  The DevAll
pseudo-device itself is never assigned. -/
def devAll (dest : Nat → Option Sink) (w : Sink) : Nat → Option Sink :=
  updDest (updDest (updDest (updDest (updDest (updDest (updDest (updDest
    dest DevStart w) DevError w) DevPanic w) DevTrace w) DevWarning w)
    DevQuery w) DevData w) DevSplunk w

/-- The map literal that Init installs before applying overrides:
Error, Panic and Warning bound to os.Stderr; Start, Trace, Query, Data
and Splunk bound to os.Stdout; no other key present. -/
def initDefaultDest : Nat → Option Sink :=
  fun d =>
    if d = DevError then some Sink.stderr
    else if d = DevPanic then some Sink.stderr
    else if d = DevWarning then some Sink.stderr
    else if d = DevStart then some Sink.stdout
    else if d = DevTrace then some Sink.stdout
    else if d = DevQuery then some Sink.stdout
    else if d = DevData then some Sink.stdout
    else if d = DevSplunk then some Sink.stdout
    else none

/-- DevWriter from device.go. -/
structure DevWriter where
  device : Nat
  writer : Sink
deriving DecidableEq, Repr

/-- One iteration of the override loop in Init: a DevAll override is
expanded to Dev.All, any other override updates the single device. -/
def applyDevWriter (dest : Nat → Option Sink) (dw : DevWriter) : Nat → Option Sink :=
  if dw.device = DevAll then devAll dest dw.writer
  else updDest dest dw.device dw.writer

/-- The destination table produced by Init(..., dws...): the default map
literal, then the overrides applied in listed order (a nil slice runs the
loop zero times). -/
def initDest (dws : List DevWriter) : Nat → Option Sink :=
  dws.foldl applyDevWriter initDefaultDest

/-- Level constant LevelOff from logger.go. -/
def LevelOff : Int := 0

/-- Level constant LevelError. -/
def LevelError : Int := 1

/-- Level constant LevelWarning. -/
def LevelWarning : Int := 2

/-- Level constant LevelOutput. -/
def LevelOutput : Int := 3

/-- Level constant LevelTrace. -/
def LevelTrace : Int := 4

/-- The call families exposed by Logger, UplevelLogger and the Uplevel
methods. -/
inductive Family where
  | start | startf | complete | completef
  | completeErr | completeErrf | err | errf
  | errFatal | errFatalf | errPanic | errPanicf
  | tracef | warnf | queryf
  | dataKV | dataBlock | dataString | dataTrace
deriving DecidableEq, Repr

/-- The observable shape of one Uplevel method invocation: the device its
(first) output call targets, and the calldepth it passes to dtFile. -/
structure UplevelCall where
  dev : Nat
  calldepth : Int
deriving DecidableEq, Repr

/-- Uplevel.Start: dtFile(2+int(lvl), ...), output to Dev.get(DevStart). -/
def upStart (lvl : Int) : UplevelCall := ⟨DevStart, 2 + lvl⟩

/-- Uplevel.Startf. -/
def upStartf (lvl : Int) : UplevelCall := ⟨DevStart, 2 + lvl⟩

/-- Uplevel.Complete (writes to the Start device). -/
def upComplete (lvl : Int) : UplevelCall := ⟨DevStart, 2 + lvl⟩

/-- Uplevel.Completef. -/
def upCompletef (lvl : Int) : UplevelCall := ⟨DevStart, 2 + lvl⟩

/-- Uplevel.CompleteErr. -/
def upCompleteErr (lvl : Int) : UplevelCall := ⟨DevError, 2 + lvl⟩

/-- Uplevel.CompleteErrf. -/
def upCompleteErrf (lvl : Int) : UplevelCall := ⟨DevError, 2 + lvl⟩

/-- Uplevel.Err. -/
def upErr (lvl : Int) : UplevelCall := ⟨DevError, 2 + lvl⟩

/-- Uplevel.Errf. -/
def upErrf (lvl : Int) : UplevelCall := ⟨DevError, 2 + lvl⟩

/-- Uplevel.ErrFatal (first output call; the TERMINATING line, Shutdown
and os.Exit follow). -/
def upErrFatal (lvl : Int) : UplevelCall := ⟨DevError, 2 + lvl⟩

/-- Uplevel.ErrFatalf. -/
def upErrFatalf (lvl : Int) : UplevelCall := ⟨DevError, 2 + lvl⟩

/-- Uplevel.ErrPanic (first output call; targets the Panic device). -/
def upErrPanic (lvl : Int) : UplevelCall := ⟨DevPanic, 2 + lvl⟩

/-- Uplevel.ErrPanicf. -/
def upErrPanicf (lvl : Int) : UplevelCall := ⟨DevPanic, 2 + lvl⟩

/-- Uplevel.Tracef. -/
def upTracef (lvl : Int) : UplevelCall := ⟨DevTrace, 2 + lvl⟩

/-- Uplevel.Warnf. -/
def upWarnf (lvl : Int) : UplevelCall := ⟨DevWarning, 2 + lvl⟩

/-- Uplevel.Queryf. -/
def upQueryf (lvl : Int) : UplevelCall := ⟨DevQuery, 2 + lvl⟩

/-- Uplevel.DataKV. -/
def upDataKV (lvl : Int) : UplevelCall := ⟨DevData, 2 + lvl⟩

/-- Uplevel.DataString. -/
def upDataString (lvl : Int) : UplevelCall := ⟨DevData, 2 + lvl⟩

/-- Uplevel.DataBlock delegates every branch to (lvl+1).DataString, so its
dtFile call happens one uplevel unit deeper. -/
def upDataBlock (lvl : Int) : UplevelCall := upDataString (lvl + 1)

/-- Uplevel.DataTrace. -/
def upDataTrace (lvl : Int) : UplevelCall := ⟨DevData, 2 + lvl⟩

/-- Selector mapping each family to its Uplevel method embedding. -/
def uplevelCall (f : Family) (lvl : Int) : UplevelCall :=
  match f with
  | .start => upStart lvl
  | .startf => upStartf lvl
  | .complete => upComplete lvl
  | .completef => upCompletef lvl
  | .completeErr => upCompleteErr lvl
  | .completeErrf => upCompleteErrf lvl
  | .err => upErr lvl
  | .errf => upErrf lvl
  | .errFatal => upErrFatal lvl
  | .errFatalf => upErrFatalf lvl
  | .errPanic => upErrPanic lvl
  | .errPanicf => upErrPanicf lvl
  | .tracef => upTracef lvl
  | .warnf => upWarnf lvl
  | .queryf => upQueryf lvl
  | .dataKV => upDataKV lvl
  | .dataBlock => upDataBlock lvl
  | .dataString => upDataString lvl
  | .dataTrace => upDataTrace lvl

/-- The guard constant of each Logger method, transcribed from the
eighteen if-statements in logger.go (the UplevelLogger methods carry the
identical guards). -/
def loggerMin (f : Family) : Int :=
  match f with
  | .start => LevelTrace
  | .startf => LevelTrace
  | .complete => LevelTrace
  | .completef => LevelTrace
  | .completeErr => LevelError
  | .completeErrf => LevelError
  | .err => LevelError
  | .errf => LevelError
  | .errFatal => LevelError
  | .errFatalf => LevelError
  | .errPanic => LevelError
  | .errPanicf => LevelError
  | .tracef => LevelTrace
  | .warnf => LevelWarning
  | .queryf => LevelTrace
  | .dataKV => LevelOutput
  | .dataBlock => LevelOutput
  | .dataString => LevelOutput
  | .dataTrace => LevelOutput

/-- A direct Logger method call: the guard compares the freshly evaluated
level accessor against the method's constant and, when it passes, forwards
to the package-level Up1 = Uplevel(1) method. -/
def loggerCall (level : Int) (f : Family) : Option UplevelCall :=
  if level ≥ loggerMin f then some (uplevelCall f 1) else none

/-- A call through the Logger's Up1 proxy: UplevelLogger carries the same
guard and forwards to Uplevel(2) (NewLogger sets l.Up1.up = 2). -/
def uplevelLoggerCall (level : Int) (f : Family) : Option UplevelCall :=
  if level ≥ loggerMin f then some (uplevelCall f 2) else none

/-- Spec-side definition for claim C4, following the spec's words only:
Error-family at least LevelError(1), Warn at least LevelWarning(2),
Data-family at least LevelOutput(3), Start/Complete/Trace/Query at least
LevelTrace(4).  To be compared with the guards transcribed from the code. -/
def specMinLevel (f : Family) : Int :=
  match f with
  | .completeErr | .completeErrf | .err | .errf
  | .errFatal | .errFatalf | .errPanic | .errPanicf => 1
  | .warnf => 2
  | .dataKV | .dataBlock | .dataString | .dataTrace => 3
  | .start | .startf | .complete | .completef | .tracef | .queryf => 4

/-- One frame of the goroutine stack as runtime introspection reports it:
the full function name, the full file path and the line number. -/
structure Frame where
  funcName : String
  file : String
  line : Nat
deriving DecidableEq, Repr

/-- The file component of Go's path.Split: everything after the last
slash (the whole string when there is no slash, empty for an empty path
or a path ending in a slash).  Computed on the character list so that it
evaluates by kernel reduction. -/
def pathSplitFile (s : String) : String :=
  ⟨s.data.foldl (fun acc c => if c = '/' then [] else acc ++ [c]) []⟩

/-- Result of the function-name walk in dtFile for calldepth at least 1.
The code runs runtime.Callers(calldepth, pc) with len(pc) = calldepth+1
and reads pc[calldepth-1].  With frames numbered from dtFile itself
(frame 0 = dtFile, frame 1 = its caller, ...), runtime.Callers' skip 1
identifies dtFile, so pc[i] holds frame calldepth+i-1 and the entry read
is frame 2*calldepth-2.  A pc entry beyond the real stack stays zero;
runtime.FuncForPC then yields nil, whose Name() is the empty string, and
path.Split of it leaves the empty string. -/
def funcNameWalk (stack : List Frame) (calldepth : Nat) : String :=
  match stack.get? (2 * calldepth - 2) with
  | some f => pathSplitFile f.funcName
  | none => ""

/-- Result of runtime.Caller(calldepth) inside dtFile: frame calldepth in
the same numbering (runtime.Caller's skip 0 identifies dtFile), with
ok = false once the depth leaves the real stack (or is negative). -/
def callerWalk (stack : List Frame) (calldepth : Int) : Option (String × Nat) :=
  if calldepth < 0 then none
  else (stack.get? calldepth.toNat).map fun f => (f.file, f.line)

/-- The quadruple dtFile returns. -/
structure DtResult where
  dateTime : String
  file : String
  funcName : String
  pid : Nat
deriving DecidableEq, Repr

/-- Shallow embedding of dtFile from log.go.  The ambient runtime is
explicit: test is the l.test flag, now the current formatted UTC time,
pid the os.Getpid() value and stack the goroutine stack above dtFile.
A none result models a runtime panic: when no explicit function name is
given and calldepth < 1, the code indexes pc[calldepth-1] out of range. -/
def dtFile (test : Bool) (now : String) (pid : Nat) (stack : List Frame)
    (calldepth : Int) (function : String) : Option DtResult :=
  if function = "" ∧ calldepth < 1 then none
  else
    let funcName := if function = "" then funcNameWalk stack calldepth.toNat else function
    if test then some ⟨testDateTime, "file.go#512", funcName, 69910⟩
    else
      match callerWalk stack calldepth with
      | none => some ⟨now, "unknown.go#0:", "missing", pid⟩
      | some (filePath, ln) =>
          some ⟨now, pathSplitFile filePath ++ "#" ++ Nat.repr ln, funcName, pid⟩

/-- The body that DataString builds from a non-empty message: the data is
split on newline bytes, empty lines are skipped, and every remaining line
is written as a tab, the line and a newline. -/
def dataStringBody (message : String) : String :=
  String.join (((message.splitOn "\n").filter (fun ln => ln ≠ "")).map
    (fun ln => "\t" ++ ln ++ "\n"))

/-- The string Uplevel.DataString hands to output, as a function of the
already-rendered line header (the "dt: PREFIX[pid]: file: context: fn: "
part, identical in both of DataString's branches).  An empty message
renders the fixed DATA missing marker instead of an empty block. -/
def dataStringPayload (hdr : String) (message : String) : String :=
  if message = "" then hdr ++ "DATA: %!ds(MISSING)\n"
  else hdr ++ "DATA:\n" ++ dataStringBody message

/-- A block argument to DataBlock together with the outcome of
encoding/json.MarshalIndent(block, "", four spaces), which is external to
the package: a Go string is never marshalled; marshalOk stands for a
non-string value whose marshalling succeeds with the given indented JSON
text; marshalErr stands for an unserializable value (NaN, a channel, ...)
whose marshalling fails with the given error text. -/
inductive BlockValue where
  | goString (s : String)
  | marshalOk (json : String)
  | marshalErr (errText : String)
deriving DecidableEq, Repr

/-- An output invocation as the data renderers produce it: device,
dtFile calldepth and the payload string handed to output. -/
structure OutputCall where
  dev : Nat
  calldepth : Int
  payload : String
deriving DecidableEq, Repr

/-- Uplevel.DataString as an output invocation: dtFile at 2+lvl, the
Data device, and the payload above. -/
def uplevelDataStringOut (lvl : Int) (hdr : String) (message : String) : OutputCall :=
  ⟨DevData, 2 + lvl, dataStringPayload hdr message⟩

/-- Uplevel.DataBlock from safe_buffer.go: a string block goes straight
to (lvl+1).DataString; otherwise MarshalIndent runs and its JSON text on
success, or its error text on failure, goes to (lvl+1).DataString. -/
def uplevelDataBlockOut (lvl : Int) (hdr : String) (block : BlockValue) : OutputCall :=
  match block with
  | .goString v => uplevelDataStringOut (lvl + 1) hdr v
  | .marshalOk d => uplevelDataStringOut (lvl + 1) hdr d
  | .marshalErr e => uplevelDataStringOut (lvl + 1) hdr e

/-- The formatting stage at the top of output, before the mutex.  The
args parameter abstracts the variadic slice: none models a == nil (format
used verbatim), some r models a non-nil slice whose fmt.Sprintf rendering
is r.  An empty format string is replaced by emptyMessage before any
rendering.  The code then reads the last byte, format[len(format)-1]; a
none result models the index-out-of-range panic that raises when the
rendered text is empty.  Otherwise one newline is appended exactly when
the text does not already end in one. -/
def renderOutput (format : String) (args : Option String) : Option String :=
  let s := if format = "" then emptyMessage
    else match args with
      | some rendered => rendered
      | none => format
  if s = "" then none
  else if s.data.getLast? = some '\n' then some s
  else some (s ++ "\n")

/-- Association-list lookup for per-sink byte maps. -/
def lookupAssoc : List (Sink × String) → Sink → Option String
  | [], _ => none
  | (k, v) :: rest, s => if k = s then some v else lookupAssoc rest s

/-- Association-list append: bytes are appended to the sink's existing
entry, or a new entry is created (the map insert-or-append that both
bulkLines and an io.Writer's delivered content follow). -/
def appendAssoc : List (Sink × String) → Sink → String → List (Sink × String)
  | [], s, b => [(s, b)]
  | (k, v) :: rest, s, b =>
      if k = s then (k, v ++ b) :: rest else (k, v) :: appendAssoc rest s b

/-- State of one Init/Shutdown cycle of the dispatch pipeline, shared by
the dispatcher (output, Shutdown; these serialize on l.mu) and the
safeWrite goroutine (which takes no lock).

queue is the buffered contents of the write channel and closed its closed
flag; pending is l.pendingWrites; incrDue records that the dispatcher's
channel send has completed but its atomic.AddInt32(+1) has not yet run
(the two are separate instructions, and safeWrite can interleave between
them); bulk is safeWrite's bulkLines map; written is the content actually
delivered to each sink, whether by a bulk flush or by the direct
fmt.Fprintf of the logging-was-off warning; exitPosted means Shutdown has
closed the channel and is offering on l.exit; writerDone means safeWrite
has left its loop.  Timers are abstracted into the nondeterministic
sendOk oracle of the dispatch step and the untimed enabling of the flush
step. -/
structure PipeState where
  capacity : Nat
  queue : List (Sink × String)
  closed : Bool
  pending : Int
  shutdown : Bool
  loggingOff : Bool
  incrDue : Bool
  bulk : List (Sink × String)
  written : List (Sink × String)
  exitPosted : Bool
  writerDone : Bool
deriving DecidableEq, Repr

/-- The select at the bottom of output's locked region: the channel send
races the stall timer.  sendOk true with buffer space available models
the send winning: the line is enqueued and the +1 increment is left due.
Otherwise the timer wins and logging turns off. -/
def outputSelect (st : PipeState) (sink : Sink) (payload : String)
    (sendOk : Bool) : PipeState :=
  if sendOk ∧ st.queue.length < st.capacity then
    { st with queue := st.queue ++ [(sink, payload)], incrDue := true }
  else
    { st with loggingOff := true }

/-- The locked region of output up to and including the select, for an
already-rendered payload.  Returns unchanged when shutting down, or when
logging is off with writes still pending (the line is dropped).  When
logging is off and nothing is pending, the flag is cleared and
LoggingWasOff is written synchronously to the sink, bypassing the queue,
before the normal enqueue attempt runs. -/
def outputLocked1 (st : PipeState) (sink : Sink) (payload : String)
    (sendOk : Bool) : PipeState :=
  if st.shutdown then st
  else if st.loggingOff ∧ st.pending > 0 then st
  else if st.loggingOff then
    outputSelect
      { st with loggingOff := false,
                written := appendAssoc st.written sink LoggingWasOff }
      sink payload sendOk
  else outputSelect st sink payload sendOk

/-- The dispatcher's atomic.AddInt32(&l.pendingWrites, 1) that follows a
successful send. -/
def outputLocked2 (st : PipeState) : PipeState :=
  if st.incrDue then { st with pending := st.pending + 1, incrDue := false }
  else st

/-- A whole output call as the dispatcher experiences it (no safeWrite
interleaving): the nil-writer early return, the formatting stage (none
propagates the formatting panic), then the locked region and the pending
increment. -/
def outputCall (st : PipeState) (w : Option Sink) (format : String)
    (args : Option String) (sendOk : Bool) : Option PipeState :=
  match w with
  | none => some st
  | some sink =>
      match renderOutput format args with
      | none => none
      | some payload => some (outputLocked2 (outputLocked1 st sink payload sendOk))

/-- safeWrite's flush closure: every accumulated bulk buffer is handed to
its sink (as a fire-and-forget Write, modeled as delivered) and the map
is cleared. -/
def flushBulk (st : PipeState) : PipeState :=
  { st with written := st.bulk.foldl (fun w kv => appendAssoc w kv.1 kv.2) st.written,
            bulk := [] }

/-- The interleaved actions of the pipeline.  dispatch1/dispatch2 are the
two halves of an output call (the caller's goroutine, serialized by
l.mu); shutdownStep is Shutdown's critical section up to the exit offer;
the remaining four are the branches of safeWrite's select loop. -/
inductive Step where
  | dispatch1 (w : Option Sink) (payload : String) (sendOk : Bool)
  | dispatch2
  | shutdownStep
  | recvLine
  | recvZero
  | bulkFlush
  | recvExit
deriving DecidableEq, Repr

/-- One interleaving step.  A step whose enabling condition fails leaves
the state unchanged.

dispatch1 runs the locked region (a nil writer returns before the lock);
dispatch2 the pending increment.  shutdownStep sets the shutdown flag,
closes the channel and posts the exit offer (all inside l.mu, so never
between the two dispatch halves).  recvLine receives a buffered line:
its writer is never nil, so it is appended to the line's bulk buffer,
and pendingWrites is decremented.  recvZero is the receive from the
closed, drained channel: it yields the zero line whose nil writer skips
the append, yet still runs the decrement.  bulkFlush is the bulk timer
firing; recvExit is the exit branch, which flushes once and leaves the
loop even if lines remain buffered in the closed channel. -/
def stepFn (a : Step) (st : PipeState) : PipeState :=
  match a with
  | .dispatch1 w payload sendOk =>
      if st.incrDue then st
      else
        match w with
        | none => st
        | some sink => outputLocked1 st sink payload sendOk
  | .dispatch2 => outputLocked2 st
  | .shutdownStep =>
      if st.closed ∨ st.incrDue then st
      else { st with shutdown := true, closed := true, exitPosted := true }
  | .recvLine =>
      if st.writerDone then st
      else
        match st.queue with
        | [] => st
        | (sink, b) :: rest =>
            { st with queue := rest,
                      bulk := appendAssoc st.bulk sink b,
                      pending := st.pending - 1 }
  | .recvZero =>
      if st.closed ∧ st.queue = [] ∧ ¬st.writerDone then
        { st with pending := st.pending - 1 }
      else st
  | .bulkFlush => if st.writerDone then st else flushBulk st
  | .recvExit =>
      if st.exitPosted ∧ ¬st.writerDone then
        { flushBulk st with writerDone := true }
      else st

/-- The state right after Init(prefix, cap, ...): fresh channel of the
given capacity, flags cleared, counters zero (first cycle). -/
def initState (cap : Nat) : PipeState :=
  { capacity := cap, queue := [], closed := false, pending := 0,
    shutdown := false, loggingOff := false, incrDue := false,
    bulk := [], written := [], exitPosted := false, writerDone := false }

/-- Run an interleaving from the initial state of a cycle. -/
def runSteps (cap : Nat) (steps : List Step) : PipeState :=
  steps.foldl (fun s a => stepFn a s) (initState cap)

/-- Invariant of the pipeline: while the write channel is open, the
pending counter plus the dispatcher's one not-yet-performed increment
equals the number of lines buffered in the channel. -/
def pipeInv (s : PipeState) : Prop :=
  s.closed = false → s.pending + (if s.incrDue then 1 else 0) = s.queue.length

/- Helper lemmas. -/

/-- Every decimal digit character is a digit. -/
theorem digitChar_isDigit : ∀ m, m < 10 → (Nat.digitChar m).isDigit = true := by
  decide

/-- Characters produced by the base-10 digit accumulator are digits,
provided the accumulator's seed is. -/
theorem toDigitsCore_isDigit :
    ∀ (f n : Nat) (acc : List Char), (∀ c ∈ acc, c.isDigit = true) →
      ∀ c ∈ Nat.toDigitsCore 10 f n acc, c.isDigit = true := by
  intro f
  induction f with
  | zero => intro n acc hacc c hc; exact hacc c hc
  | succ f ih =>
      intro n acc hacc c hc
      have hdig : (Nat.digitChar (n % 10)).isDigit = true :=
        digitChar_isDigit _ (Nat.mod_lt _ (by decide))
      have hacc2 : ∀ c ∈ Nat.digitChar (n % 10) :: acc, c.isDigit = true := by
        intro c hc
        rcases List.mem_cons.mp hc with h | h
        · simpa [h] using hdig
        · exact hacc c h
      rw [show Nat.toDigitsCore 10 (f + 1) n acc =
            (if n / 10 = 0 then Nat.digitChar (n % 10) :: acc
             else Nat.toDigitsCore 10 f (n / 10) (Nat.digitChar (n % 10) :: acc)) from rfl] at hc
      by_cases h0 : n / 10 = 0
      · rw [if_pos h0] at hc; exact hacc2 c hc
      · rw [if_neg h0] at hc; exact ih (n / 10) _ hacc2 c hc

/-- The base-10 digit accumulator never discards its seed. -/
theorem toDigitsCore_ne_nil :
    ∀ (f n : Nat) (acc : List Char), acc ≠ [] → Nat.toDigitsCore 10 f n acc ≠ [] := by
  intro f
  induction f with
  | zero => intro n acc hacc; exact hacc
  | succ f ih =>
      intro n acc hacc
      rw [show Nat.toDigitsCore 10 (f + 1) n acc =
            (if n / 10 = 0 then Nat.digitChar (n % 10) :: acc
             else Nat.toDigitsCore 10 f (n / 10) (Nat.digitChar (n % 10) :: acc)) from rfl]
      by_cases h0 : n / 10 = 0
      · simp [h0]
      · rw [if_neg h0]; exact ih (n / 10) _ (by simp)

/-- Every character of the decimal rendering of a Nat is a digit. -/
theorem repr_chars_isDigit (n : Nat) : ∀ c ∈ (Nat.repr n).data, c.isDigit = true := by
  intro c hc
  have h : (Nat.repr n).data = Nat.toDigits 10 n := rfl
  rw [h] at hc
  exact toDigitsCore_isDigit (n + 1) n [] (by simp) c hc

/-- The decimal rendering of a Nat is never empty. -/
theorem repr_data_ne_nil (n : Nat) : (Nat.repr n).data ≠ [] := by
  have h : (Nat.repr n).data = Nat.toDigits 10 n := rfl
  rw [h]
  show Nat.toDigitsCore 10 (n + 1) n [] ≠ []
  rw [show Nat.toDigitsCore 10 (n + 1) n [] =
        (if n / 10 = 0 then [Nat.digitChar (n % 10)]
         else Nat.toDigitsCore 10 n (n / 10) [Nat.digitChar (n % 10)]) from rfl]
  by_cases h0 : n / 10 = 0
  · simp [h0]
  · rw [if_neg h0]; exact toDigitsCore_ne_nil n (n / 10) _ (by simp)

/-- A string ending in the decimal rendering of a Nat does not end in a
colon. -/
theorem append_repr_getLast_ne_colon (s : String) (n : Nat) :
    (s ++ Nat.repr n).data.getLast? ≠ some ':' := by
  rw [String.data_append, List.getLast?_append_of_ne_nil s.data (repr_data_ne_nil n),
    List.getLast?_eq_getLast _ (repr_data_ne_nil n)]
  intro h
  have hmem := List.getLast_mem (repr_data_ne_nil n)
  have hdig := repr_chars_isDigit n _ hmem
  rw [Option.some_inj.mp h] at hdig
  exact absurd hdig (by decide)

/-- The select preserves the open-channel counting invariant whenever no
increment is already due. -/
theorem outputSelect_pipeInv (st : PipeState) (sink : Sink) (payload : String)
    (sendOk : Bool) (hd : st.incrDue = false) (h : pipeInv st) :
    pipeInv (outputSelect st sink payload sendOk) := by
  unfold outputSelect
  split
  · intro hclosed
    have := h hclosed
    simp_all
    try omega
  · intro hclosed
    have := h hclosed
    simp_all

/-- The locked region preserves the open-channel counting invariant
whenever no increment is already due. -/
theorem outputLocked1_pipeInv (st : PipeState) (sink : Sink) (payload : String)
    (sendOk : Bool) (hd : st.incrDue = false) (h : pipeInv st) :
    pipeInv (outputLocked1 st sink payload sendOk) := by
  unfold outputLocked1
  split
  · exact h
  · split
    · exact h
    · split
      · exact outputSelect_pipeInv _ sink payload sendOk hd (fun hclosed => h hclosed)
      · exact outputSelect_pipeInv _ sink payload sendOk hd h

/-- Every pipeline step preserves the open-channel counting invariant. -/
theorem stepFn_preserves_pipeInv (a : Step) (s : PipeState) (h : pipeInv s) :
    pipeInv (stepFn a s) := by
  cases a with
  | dispatch1 w payload sendOk =>
      show pipeInv (if s.incrDue then s else
        match w with
        | none => s
        | some sink => outputLocked1 s sink payload sendOk)
      by_cases hd : s.incrDue
      · simpa [hd] using h
      · simp only [hd, if_false]
        cases w with
        | none => exact h
        | some sink => exact outputLocked1_pipeInv s sink payload sendOk (by simp [hd]) h
  | dispatch2 =>
      show pipeInv (outputLocked2 s)
      unfold outputLocked2
      split
      · intro hclosed
        have := h hclosed
        simp_all
        try omega
      · exact h
  | shutdownStep =>
      show pipeInv (if s.closed ∨ s.incrDue then s else
        { s with shutdown := true, closed := true, exitPosted := true })
      split
      · exact h
      · intro hclosed
        simp at hclosed
  | recvLine =>
      show pipeInv (if s.writerDone then s else
        match s.queue with
        | [] => s
        | (sink, b) :: rest =>
            { s with queue := rest, bulk := appendAssoc s.bulk sink b,
                     pending := s.pending - 1 })
      split
      · exact h
      · cases hq : s.queue with
        | nil => exact h
        | cons hd tl =>
            cases hd with
            | mk sink b =>
                intro hclosed
                have := h (by simpa using hclosed)
                simp_all
                try omega
  | recvZero =>
      show pipeInv (if s.closed ∧ s.queue = [] ∧ ¬s.writerDone then
        { s with pending := s.pending - 1 } else s)
      split
      · rename_i hg
        intro hclosed
        simp only at hclosed
        rw [hclosed] at hg
        simp at hg
      · exact h
  | bulkFlush =>
      show pipeInv (if s.writerDone then s else flushBulk s)
      unfold flushBulk
      split
      · exact h
      · intro hclosed
        exact h hclosed
  | recvExit =>
      show pipeInv (if s.exitPosted ∧ ¬s.writerDone then
        { flushBulk s with writerDone := true } else s)
      unfold flushBulk
      split
      · intro hclosed
        exact h hclosed
      · exact h

/-- The counting invariant holds along every interleaving of a cycle. -/
theorem runSteps_pipeInv (cap : Nat) (steps : List Step) : pipeInv (runSteps cap steps) := by
  have main : ∀ (l : List Step) (s : PipeState), pipeInv s →
      pipeInv (l.foldl (fun s a => stepFn a s) s) := by
    intro l
    induction l with
    | nil => intro s hs; exact hs
    | cons a l ih => intro s hs; exact ih _ (stepFn_preserves_pipeInv a s hs)
  exact main steps (initState cap) (by intro hc; rfl)

/-- The select never changes the pending counter. -/
theorem outputSelect_pending (st : PipeState) (sink : Sink) (payload : String)
    (sendOk : Bool) : (outputSelect st sink payload sendOk).pending = st.pending := by
  unfold outputSelect
  split <;> rfl

/-- The locked region of output never changes the pending counter. -/
theorem outputLocked1_pending (st : PipeState) (sink : Sink) (payload : String)
    (sendOk : Bool) : (outputLocked1 st sink payload sendOk).pending = st.pending := by
  unfold outputLocked1
  split
  · rfl
  · split
    · rfl
    · split <;> rw [outputSelect_pending]

/-- A guarded some is present exactly when its guard holds. -/
theorem isSome_ite_guard {c : Prop} [Decidable c] (x : UplevelCall) :
    ((if c then some x else none).isSome = true) ↔ c := by
  split <;> simp_all

/- Claim theorems. -/

/-- Claim C1: in the dispatcher's locked region, while the loggingOff
flag is set and pendingWrites is positive every call returns with the
state completely unchanged (the line is dropped, nothing enqueued,
nothing written); and a call that reaches the loggingOff check (so the
shutdown gate is passed) with pendingWrites equal to 0 clears the flag
and synchronously appends the literal LoggingWasOff line to the target
sink, bypassing the queue, before running the normal enqueue attempt for
the current line (which either enqueues it and bumps pendingWrites, or
times out and turns logging off again). -/
theorem c1_dispatcher_disable_reenable (st : PipeState) (sink : Sink)
    (payload : String) (sendOk : Bool) (hd : st.incrDue = false) :
    (st.loggingOff = true → 0 < st.pending →
      outputLocked2 (outputLocked1 st sink payload sendOk) = st) ∧
    (st.shutdown = false → st.loggingOff = true → st.pending = 0 →
      (outputLocked2 (outputLocked1 st sink payload sendOk)).written
          = appendAssoc st.written sink LoggingWasOff ∧
      (sendOk = true → st.queue.length < st.capacity →
        outputLocked2 (outputLocked1 st sink payload sendOk)
          = { st with loggingOff := false,
                      written := appendAssoc st.written sink LoggingWasOff,
                      queue := st.queue ++ [(sink, payload)],
                      pending := st.pending + 1 }) ∧
      (¬(sendOk = true ∧ st.queue.length < st.capacity) →
        outputLocked2 (outputLocked1 st sink payload sendOk)
          = { st with loggingOff := true,
                      written := appendAssoc st.written sink LoggingWasOff })) := by
  constructor
  · intro hoff hpend
    unfold outputLocked1
    by_cases hsh : st.shutdown
    · simp [hsh, outputLocked2, hd]
    · simp [hsh, hoff, hpend, outputLocked2, hd]
  · intro hsh hoff hzero
    have hrec : outputLocked1 st sink payload sendOk =
        outputSelect
          { st with loggingOff := false,
                    written := appendAssoc st.written sink LoggingWasOff }
          sink payload sendOk := by
      unfold outputLocked1
      simp [hsh, hoff, hzero]
    by_cases hsend : sendOk = true ∧ st.queue.length < st.capacity
    · have key : outputLocked2 (outputLocked1 st sink payload sendOk)
          = { st with loggingOff := false,
                      written := appendAssoc st.written sink LoggingWasOff,
                      queue := st.queue ++ [(sink, payload)],
                      pending := st.pending + 1 } := by
        rw [hrec]
        unfold outputSelect outputLocked2
        simp [hsend, hd]
      refine ⟨?_, ?_, ?_⟩
      · rw [key]
      · intro _ _; exact key
      · intro hc; exact absurd hsend hc
    · have key : outputLocked2 (outputLocked1 st sink payload sendOk)
          = { st with loggingOff := true,
                      written := appendAssoc st.written sink LoggingWasOff } := by
        rw [hrec]
        unfold outputSelect outputLocked2
        simp only [if_neg hsend]
        simp [hd]
      refine ⟨?_, ?_, ?_⟩
      · rw [key]
      · intro hok hsp; exact absurd ⟨hok, hsp⟩ hsend
      · intro _; exact key

/-- Witness for C1 at concrete states: a disabled state with one pending
write drops the call unchanged, and a disabled state with no pending
write gets the LoggingWasOff line written directly to the sink. -/
theorem c1_dispatcher_disable_reenable_witness :
    outputLocked2 (outputLocked1
      { capacity := 1, queue := [(Sink.custom 0, "q\n")], closed := false,
        pending := 1, shutdown := false, loggingOff := true, incrDue := false,
        bulk := [], written := [], exitPosted := false, writerDone := false }
      (Sink.custom 1) "x\n" true)
      = { capacity := 1, queue := [(Sink.custom 0, "q\n")], closed := false,
          pending := 1, shutdown := false, loggingOff := true, incrDue := false,
          bulk := [], written := [], exitPosted := false, writerDone := false } ∧
    (outputLocked2 (outputLocked1
      { capacity := 1, queue := [], closed := false, pending := 0,
        shutdown := false, loggingOff := true, incrDue := false, bulk := [],
        written := [], exitPosted := false, writerDone := false }
      (Sink.custom 1) "x\n" true)).written
      = appendAssoc [] (Sink.custom 1) LoggingWasOff :=
  ⟨(c1_dispatcher_disable_reenable _ (Sink.custom 1) "x\n" true rfl).1 rfl (by decide),
   ((c1_dispatcher_disable_reenable _ (Sink.custom 1) "x\n" true rfl).2 rfl rfl rfl).1⟩

/-- Claim C2 evaluated at its failing interleaving: one line is
successfully enqueued (send plus pending increment complete), Shutdown
closes the channel and offers the exit signal, and safeWrite's select,
facing both a ready closed-channel receive and the ready exit receive,
picks the exit branch.  The writer flushes its (empty) buffers and
leaves the loop: Shutdown returns with the enqueued line still sitting
in the closed channel and absent from the destination's final content,
so the line is delivered zero times rather than the exactly once the
claim requires. -/
theorem c2_shutdown_can_lose_enqueued_line :
    (runSteps 1 [Step.dispatch1 (some (Sink.custom 0)) "hello\n" true,
       Step.dispatch2, Step.shutdownStep, Step.recvExit]).writerDone = true ∧
    (runSteps 1 [Step.dispatch1 (some (Sink.custom 0)) "hello\n" true,
       Step.dispatch2, Step.shutdownStep, Step.recvExit]).queue
        = [(Sink.custom 0, "hello\n")] ∧
    (runSteps 1 [Step.dispatch1 (some (Sink.custom 0)) "hello\n" true,
       Step.dispatch2, Step.shutdownStep, Step.recvExit]).written = [] := by
  decide

/-- Counterexample to claim C3: the channel send and the pendingWrites
increment are separate instructions (the send completes inside the
select, the atomic add runs after it), and safeWrite takes no lock, so
after a send the writer can dequeue the line and run its decrement
before the dispatcher's increment, leaving pendingWrites at -1.  The
two-step interleaving below reaches a state with a negative counter. -/
theorem c3_pending_can_go_negative :
    (runSteps 1 [Step.dispatch1 (some (Sink.custom 0)) "a\n" true,
       Step.recvLine]).pending = -1 := by
  decide

/-- Claim C3 as amended: pendingWrites moves upward only through the
dispatcher's post-enqueue increment and downward only through the
writer's receive branches; and in every reachable state of a cycle in
which the channel is still open and no dispatcher call is between its
send and its increment, pendingWrites equals the number of buffered
lines and hence is never negative.  (Mid-call, and after Shutdown closes
the channel, it can dip below zero as the counterexample shows.) -/
theorem c3_pending_attribution_and_nonneg :
    (∀ (a : Step) (st : PipeState),
        (st.pending < (stepFn a st).pending → a = Step.dispatch2) ∧
        ((stepFn a st).pending < st.pending →
          a = Step.recvLine ∨ a = Step.recvZero)) ∧
    (∀ (cap : Nat) (steps : List Step),
        (runSteps cap steps).closed = false →
        (runSteps cap steps).incrDue = false →
        (runSteps cap steps).pending = ((runSteps cap steps).queue.length : Int) ∧
        0 ≤ (runSteps cap steps).pending) := by
  constructor
  · intro a st
    cases a with
    | dispatch1 w payload sendOk =>
        have hpend : (stepFn (Step.dispatch1 w payload sendOk) st).pending = st.pending := by
          show (if st.incrDue then st else
            match w with
            | none => st
            | some sink => outputLocked1 st sink payload sendOk).pending = st.pending
          split
          · rfl
          · cases w with
            | none => rfl
            | some sink => exact outputLocked1_pending st sink payload sendOk
        rw [hpend]
        exact ⟨fun h => absurd h (lt_irrefl _), fun h => absurd h (lt_irrefl _)⟩
    | dispatch2 =>
        have hge : st.pending ≤ (stepFn Step.dispatch2 st).pending := by
          show st.pending ≤ (outputLocked2 st).pending
          unfold outputLocked2
          split
          · show st.pending ≤ st.pending + 1
            omega
          · exact le_refl _
        exact ⟨fun _ => rfl, fun h => absurd h (not_lt.mpr hge)⟩
    | shutdownStep =>
        have hpend : (stepFn Step.shutdownStep st).pending = st.pending := by
          show (if st.closed ∨ st.incrDue then st else
            { st with shutdown := true, closed := true, exitPosted := true }).pending
              = st.pending
          split <;> rfl
        rw [hpend]
        exact ⟨fun h => absurd h (lt_irrefl _), fun h => absurd h (lt_irrefl _)⟩
    | recvLine =>
        have hle : (stepFn Step.recvLine st).pending ≤ st.pending := by
          show (if st.writerDone then st else
            match st.queue with
            | [] => st
            | (sink, b) :: rest =>
                { st with queue := rest, bulk := appendAssoc st.bulk sink b,
                          pending := st.pending - 1 }).pending ≤ st.pending
          split
          · exact le_refl _
          · cases st.queue with
            | nil => exact le_refl _
            | cons q rest =>
                cases q with
                | mk sink b =>
                    show st.pending - 1 ≤ st.pending
                    omega
        exact ⟨fun h => absurd h (not_lt.mpr hle), fun _ => Or.inl rfl⟩
    | recvZero =>
        have hle : (stepFn Step.recvZero st).pending ≤ st.pending := by
          show (if st.closed ∧ st.queue = [] ∧ ¬st.writerDone then
            { st with pending := st.pending - 1 } else st).pending ≤ st.pending
          split
          · show st.pending - 1 ≤ st.pending
            omega
          · exact le_refl _
        exact ⟨fun h => absurd h (not_lt.mpr hle), fun _ => Or.inr rfl⟩
    | bulkFlush =>
        have hpend : (stepFn Step.bulkFlush st).pending = st.pending := by
          show (if st.writerDone then st else flushBulk st).pending = st.pending
          unfold flushBulk
          split <;> rfl
        rw [hpend]
        exact ⟨fun h => absurd h (lt_irrefl _), fun h => absurd h (lt_irrefl _)⟩
    | recvExit =>
        have hpend : (stepFn Step.recvExit st).pending = st.pending := by
          show (if st.exitPosted ∧ ¬st.writerDone then
            { flushBulk st with writerDone := true } else st).pending = st.pending
          unfold flushBulk
          split <;> rfl
        rw [hpend]
        exact ⟨fun h => absurd h (lt_irrefl _), fun h => absurd h (lt_irrefl _)⟩
  · intro cap steps hopen hquiet
    have hinv := runSteps_pipeInv cap steps hopen
    rw [hquiet] at hinv
    simp at hinv
    exact ⟨hinv, by rw [hinv]; exact Int.ofNat_nonneg _⟩

/-- Witness for the amended C3 at a concrete interleaving: after a full
output call (send and increment) the open-channel state has pendingWrites
equal to the one buffered line, hence nonnegative. -/
theorem c3_pending_attribution_and_nonneg_witness :
    (runSteps 1 [Step.dispatch1 (some (Sink.custom 0)) "a\n" true,
       Step.dispatch2]).pending
      = ((runSteps 1 [Step.dispatch1 (some (Sink.custom 0)) "a\n" true,
          Step.dispatch2]).queue.length : Int) ∧
    0 ≤ (runSteps 1 [Step.dispatch1 (some (Sink.custom 0)) "a\n" true,
          Step.dispatch2]).pending :=
  c3_pending_attribution_and_nonneg.2 1
    [Step.dispatch1 (some (Sink.custom 0)) "a\n" true, Step.dispatch2]
    (by decide) (by decide)

/-- Claim C4: a Logger call (and likewise a call through its Up1 proxy)
dispatches exactly when the freshly evaluated level accessor meets the
family's fixed minimum as the spec tabulates it - the Error family needs
level at least 1, Warnf at least 2, the Data family at least 3 and
Start/Complete/Trace/Query at least 4 - and LevelOff(0) disables every
family: below the minimum the call produces no dispatch at all. -/
theorem c4_level_gate (level : Int) (f : Family) :
    ((loggerCall level f).isSome = true ↔ specMinLevel f ≤ level) ∧
    ((uplevelLoggerCall level f).isSome = true ↔ specMinLevel f ≤ level) ∧
    loggerCall LevelOff f = none ∧ uplevelLoggerCall LevelOff f = none := by
  have hmin : loggerMin f = specMinLevel f := by
    cases f <;> rfl
  have hoff : ¬(loggerMin f ≤ LevelOff) := by
    cases f <;> decide
  refine ⟨?_, ?_, ?_, ?_⟩
  · unfold loggerCall
    rw [hmin] at *
    exact isSome_ite_guard _
  · unfold uplevelLoggerCall
    rw [hmin] at *
    exact isSome_ite_guard _
  · unfold loggerCall
    rw [if_neg hoff]
  · unfold uplevelLoggerCall
    rw [if_neg hoff]

/-- Counterexample to claim C5: when the variadic slice is non-nil and
fmt.Sprintf renders the format to the empty string (here output(w, "%s",
"")), the code reaches format[len(format)-1] with len(format) = 0 and
panics with an index-out-of-range, so no payload at all is handed to the
queue - the claim instead promises a payload ending in an appended
newline. -/
theorem c5_empty_rendered_text_panics : renderOutput "%s" (some "") = none := rfl

/-- Claim C5 as amended: output with a nil writer is a silent no-op; an
empty format string is replaced by the emptyMessage sentinel (which
already ends in a newline, so it passes through unchanged); and whenever
the rendered text is non-empty, the payload handed onward is exactly the
rendered text with one newline appended when it does not already end in
one and unchanged when it does.  (An empty rendered text, which no
caller inside the package produces, panics instead, as the
counterexample shows.) -/
theorem c5_output_render (st : PipeState) (format : String)
    (args : Option String) (sendOk : Bool) :
    (outputCall st none format args sendOk = some st) ∧
    (renderOutput "" args = some emptyMessage) ∧
    (format ≠ "" → args.getD format ≠ "" →
      renderOutput format args
        = some (if (args.getD format).data.getLast? = some '\n' then args.getD format
                else args.getD format ++ "\n")) := by
  refine ⟨rfl, ?_, ?_⟩
  · unfold renderOutput
    simp [emptyMessage]
  · intro hfmt hs
    unfold renderOutput
    rw [if_neg hfmt]
    cases args with
    | none =>
        simp only [Option.getD] at hs ⊢
        rw [if_neg hs]
        split <;> rfl
    | some r =>
        simp only [Option.getD] at hs ⊢
        rw [if_neg hs]
        split <;> rfl

/-- Witness for the amended C5 at concrete inputs: a nil writer leaves
the state untouched, the empty format yields the sentinel, a newline-free
rendering gains a newline and a newline-terminated one is unchanged. -/
theorem c5_output_render_witness :
    outputCall (initState 1) none "x" none true = some (initState 1) ∧
    renderOutput "" (some "ignored") = some emptyMessage ∧
    renderOutput "x" none = some ("x" ++ "\n") ∧
    renderOutput "y\n" (some "z\n") = some "z\n" :=
  ⟨(c5_output_render (initState 1) "x" none true).1,
   (c5_output_render (initState 1) "" (some "ignored") true).2.1,
   by
     have h := (c5_output_render (initState 1) "x" none true).2.2
       (by decide) (by decide)
     exact h.trans (by decide),
   by
     have h := (c5_output_render (initState 1) "y\n" (some "z\n") true).2.2
       (by decide) (by decide)
     exact h.trans (by decide)⟩

/-- Claim C6: with no overrides Init binds Error, Panic and Warning to
os.Stderr and Start, Trace, Query, Data and Splunk to os.Stdout (and the
All pseudo-device has no binding); overrides are applied after the
defaults in listed order; a DevAll override is expanded to Dev.All, which
rebinds exactly the eight concrete devices - never the All pseudo-device
itself - to the given sink. -/
theorem c6_init_default_and_overrides (dws : List DevWriter) (dw : DevWriter)
    (dest : Nat → Option Sink) (w : Sink) (d : Nat) :
    (initDest [] DevError = some Sink.stderr ∧
     initDest [] DevPanic = some Sink.stderr ∧
     initDest [] DevWarning = some Sink.stderr ∧
     initDest [] DevStart = some Sink.stdout ∧
     initDest [] DevTrace = some Sink.stdout ∧
     initDest [] DevQuery = some Sink.stdout ∧
     initDest [] DevData = some Sink.stdout ∧
     initDest [] DevSplunk = some Sink.stdout ∧
     initDest [] DevAll = none) ∧
    initDest (dws ++ [dw]) = applyDevWriter (initDest dws) dw ∧
    applyDevWriter dest ⟨DevAll, w⟩ = devAll dest w ∧
    ((d = DevStart ∨ d = DevError ∨ d = DevPanic ∨ d = DevTrace ∨
      d = DevWarning ∨ d = DevQuery ∨ d = DevData ∨ d = DevSplunk) →
      devAll dest w d = some w) ∧
    devAll dest w DevAll = dest DevAll := by
  refine ⟨⟨rfl, rfl, rfl, rfl, rfl, rfl, rfl, rfl, rfl⟩, ?_, rfl, ?_, rfl⟩
  · unfold initDest
    rw [List.foldl_append]
    rfl
  · intro hmem
    rcases hmem with rfl | rfl | rfl | rfl | rfl | rfl | rfl | rfl <;> rfl

/-- Witness for C6 at a concrete device: Dev.All rebinds the Trace device
to the given sink, and the default table binds Error to os.Stderr. -/
theorem c6_init_default_and_overrides_witness :
    devAll initDefaultDest (Sink.custom 5) DevTrace = some (Sink.custom 5) ∧
    initDest [] DevError = some Sink.stderr :=
  ⟨(c6_init_default_and_overrides [] ⟨DevAll, Sink.custom 5⟩ initDefaultDest
      (Sink.custom 5) DevTrace).2.2.2.1 (by decide),
   (c6_init_default_and_overrides [] ⟨DevAll, Sink.custom 5⟩ initDefaultDest
      (Sink.custom 5) DevTrace).1.1⟩

/-- Counterexample to claim C7: the claim says dtFile never fails, but a
call with calldepth 0 and no explicit function name indexes
pc[calldepth-1] = pc[-1] and panics with an index-out-of-range (reachable
through the exported Uplevel type: Uplevel(-2).Start passes calldepth
2 + (-2) = 0).  The model returns none for the panic. -/
theorem c7_depth_zero_walk_panics :
    dtFile false "2024/01/02 03:04:05.000" 42 [] 0 "" = none := rfl

/-- Claim C7 as amended: for every call with calldepth at least 1 in
non-test mode the resolver never fails; when the runtime.Caller file/line
walk fails the result is the literal "unknown.go#0:" (trailing colon
preserved) with functionName the literal "missing"; on success
fileAndLine is basename#line with no trailing colon, and functionName is
the explicit name when one was given, otherwise whatever the
function-name walk recovered (which is the empty string, not "missing",
when only that deeper walk runs past the stack).  At calldepth 0 with no
explicit name the call panics instead, as the counterexample shows. -/
theorem c7_resolver_degrades (now : String) (pid : Nat) (stack : List Frame)
    (calldepth : Int) (function : String) (hd : 1 ≤ calldepth) :
    (dtFile false now pid stack calldepth function).isSome = true ∧
    (callerWalk stack calldepth = none →
      dtFile false now pid stack calldepth function
        = some ⟨now, "unknown.go#0:", "missing", pid⟩) ∧
    (∀ fp ln, callerWalk stack calldepth = some (fp, ln) →
      dtFile false now pid stack calldepth function
        = some ⟨now, pathSplitFile fp ++ "#" ++ Nat.repr ln,
                if function = "" then funcNameWalk stack calldepth.toNat
                else function, pid⟩ ∧
      (pathSplitFile fp ++ "#" ++ Nat.repr ln).data.getLast? ≠ some ':') := by
  have hng : ¬(function = "" ∧ calldepth < 1) := by
    rintro ⟨-, hlt⟩
    omega
  have main : dtFile false now pid stack calldepth function =
      match callerWalk stack calldepth with
      | none => some ⟨now, "unknown.go#0:", "missing", pid⟩
      | some (fp, ln) =>
          some ⟨now, pathSplitFile fp ++ "#" ++ Nat.repr ln,
                if function = "" then funcNameWalk stack calldepth.toNat
                else function, pid⟩ := by
    unfold dtFile
    rw [if_neg hng]
    simp only [Bool.false_eq_true, if_false]
  refine ⟨?_, ?_, ?_⟩
  · rw [main]
    cases hw : callerWalk stack calldepth with
    | none => simp
    | some p => cases p with | mk fp ln => simp
  · intro hw
    rw [main, hw]
  · intro fp ln hw
    rw [main, hw]
    exact ⟨rfl, append_repr_getLast_ne_colon (pathSplitFile fp ++ "#") ln⟩

/-- Witness for the amended C7: a walk past an empty stack degrades to
the two sentinels, and a successful walk yields basename#line and honors
the explicit name. -/
theorem c7_resolver_degrades_witness :
    dtFile false "now" 3 [] 1 "" = some ⟨"now", "unknown.go#0:", "missing", 3⟩ ∧
    dtFile false "now" 3 [⟨"m.f0", "a.go", 1⟩, ⟨"pkg/obj.fn", "dir/code.go", 12⟩] 1 "X"
      = some ⟨"now", "code.go#12", "X", 3⟩ :=
  ⟨(c7_resolver_degrades "now" 3 [] 1 "" (by decide)).2.1 rfl,
   by
     have h := ((c7_resolver_degrades "now" 3
       [⟨"m.f0", "a.go", 1⟩, ⟨"pkg/obj.fn", "dir/code.go", 12⟩] 1 "X"
       (by decide)).2.2 "dir/code.go" 12 rfl).1
     exact h.trans (by decide)⟩

/-- Counterexample to claim C8: with an empty explicit function name the
proxy-in-helper call and the direct call one frame higher do not produce
identical output.  runtime.Caller resolves file and line at frame
calldepth (both sides land on main.user's call line, main.go#10), but
runtime.Callers(calldepth, pc) followed by pc[calldepth-1] reads frame
2*calldepth - 2, which advances two frames per depth unit: the direct
call at depth 3 names main.callerA while the proxied call at depth 4 on
the one-frame-deeper stack names main.callerB. -/
theorem c8_proxy_not_identical_when_function_empty :
    dtFile false "now" 9
      [⟨"log.dtFile", "log/log.go", 200⟩,
       ⟨"log.Uplevel.Start", "log/safe_buffer.go", 86⟩,
       ⟨"log.UplevelLogger.Start", "uplevel.go", 32⟩,
       ⟨"main.helper", "main.go", 5⟩,
       ⟨"main.user", "main.go", 10⟩,
       ⟨"main.callerA", "main.go", 30⟩,
       ⟨"main.callerB", "main.go", 50⟩] 4 ""
    ≠ dtFile false "now" 9
      [⟨"log.dtFile", "log/log.go", 200⟩,
       ⟨"log.Uplevel.Start", "log/safe_buffer.go", 86⟩,
       ⟨"log.Logger.Start", "log/logger.go", 55⟩,
       ⟨"main.user", "main.go", 10⟩,
       ⟨"main.callerA", "main.go", 30⟩,
       ⟨"main.callerB", "main.go", 50⟩] 3 "" := by
  decide

/-- Claim C8 as amended: the Up1 proxy always resolves with a calldepth
exactly one unit greater than the owner's direct call (the direct Logger
method forwards to the package-level Up1 = Uplevel(1), the proxy to
Uplevel(2)), targeting the same device with the same gate; pushing one
helper frame while adding one depth unit preserves the runtime.Caller
file/line resolution exactly; and with a non-empty explicit function
name the whole dtFile result of the proxy-in-helper call is identical to
the direct call one frame higher.  With an empty name the recovered
function name can differ, as the counterexample shows. -/
theorem c8_uplevel_depth_accounting (f : Family) (level : Int) (test : Bool)
    (now : String) (pid : Nat) (fr : Frame) (stack : List Frame) (d : Int)
    (fn : String) :
    (loggerMin f ≤ level →
      loggerCall level f = some (uplevelCall f 1) ∧
      uplevelLoggerCall level f = some (uplevelCall f 2)) ∧
    ((uplevelCall f 2).calldepth = (uplevelCall f 1).calldepth + 1 ∧
     (uplevelCall f 2).dev = (uplevelCall f 1).dev) ∧
    (0 ≤ d → callerWalk (fr :: stack) (d + 1) = callerWalk stack d) ∧
    (0 ≤ d → fn ≠ "" →
      dtFile test now pid (fr :: stack) (d + 1) fn = dtFile test now pid stack d fn) := by
  have hcw : 0 ≤ d → callerWalk (fr :: stack) (d + 1) = callerWalk stack d := by
    intro hd
    unfold callerWalk
    rw [if_neg (by omega), if_neg (by omega)]
    have ht : (d + 1).toNat = d.toNat + 1 := by omega
    rw [ht]
    rfl
  refine ⟨?_, ?_, hcw, ?_⟩
  · intro hlev
    unfold loggerCall uplevelLoggerCall
    rw [if_pos hlev, if_pos hlev]
    exact ⟨rfl, rfl⟩
  · cases f <;> exact ⟨by decide, rfl⟩
  · intro hd hfn
    have hng1 : ¬(fn = "" ∧ d + 1 < 1) := by
      rintro ⟨hfe, -⟩
      exact hfn hfe
    have hng2 : ¬(fn = "" ∧ d < 1) := by
      rintro ⟨hfe, -⟩
      exact hfn hfe
    unfold dtFile
    rw [if_neg hng1, if_neg hng2, hcw hd]
    simp only [if_neg hfn]

/-- Witness for the amended C8: a concrete one-frame push with one extra
depth unit resolves to the same result, and at level 4 the Start family
dispatches through Uplevel(1) directly and Uplevel(2) via the proxy. -/
theorem c8_uplevel_depth_accounting_witness :
    dtFile false "t" 1 (⟨"m.h", "h.go", 7⟩ :: [⟨"m.u", "u.go", 9⟩]) 1 "fx"
      = dtFile false "t" 1 [⟨"m.u", "u.go", 9⟩] 0 "fx" ∧
    loggerCall 4 Family.start = some (uplevelCall Family.start 1) ∧
    uplevelLoggerCall 4 Family.start = some (uplevelCall Family.start 2) :=
  ⟨(c8_uplevel_depth_accounting Family.start 4 false "t" 1 ⟨"m.h", "h.go", 7⟩
      [⟨"m.u", "u.go", 9⟩] 0 "fx").2.2.2 (by decide) (by decide),
   ((c8_uplevel_depth_accounting Family.start 4 false "t" 1 ⟨"m.h", "h.go", 7⟩
      [⟨"m.u", "u.go", 9⟩] 0 "fx").1 (by decide)).1,
   ((c8_uplevel_depth_accounting Family.start 4 false "t" 1 ⟨"m.h", "h.go", 7⟩
      [⟨"m.u", "u.go", 9⟩] 0 "fx").1 (by decide)).2⟩

/-- Claim C9: DataBlock on a Go string delegates to the block-string
renderer DataString one uplevel unit deeper, producing exactly its
output; on a non-string value that marshals, the indented JSON text is
rendered through the same block-string renderer; and on an
unserializable value the marshalling error's text becomes the block
body, again through the same renderer. -/
theorem c9_datablock_renders_through_datastring (lvl : Int) (hdr : String)
    (s j e : String) :
    uplevelDataBlockOut lvl hdr (BlockValue.goString s)
      = uplevelDataStringOut (lvl + 1) hdr s ∧
    uplevelDataBlockOut lvl hdr (BlockValue.marshalOk j)
      = ⟨DevData, 2 + (lvl + 1), dataStringPayload hdr j⟩ ∧
    uplevelDataBlockOut lvl hdr (BlockValue.marshalErr e)
      = ⟨DevData, 2 + (lvl + 1), dataStringPayload hdr e⟩ :=
  ⟨rfl, rfl, rfl⟩

/-- Claim C10: in non-test mode, when the runtime.Caller file/line walk
fails, dtFile returns functionName "missing" even when a non-empty
explicit function name was supplied - the explicit name is discarded on
the failure path; it is honored exactly when the file/line walk succeeds,
or in test mode. -/
theorem c10_explicit_name_discarded_on_walk_failure (now : String) (pid : Nat)
    (stack : List Frame) (calldepth : Int) (function : String) :
    (1 ≤ calldepth → callerWalk stack calldepth = none →
      dtFile false now pid stack calldepth function
        = some ⟨now, "unknown.go#0:", "missing", pid⟩) ∧
    (function ≠ "" → ∀ fp ln, callerWalk stack calldepth = some (fp, ln) →
      dtFile false now pid stack calldepth function
        = some ⟨now, pathSplitFile fp ++ "#" ++ Nat.repr ln, function, pid⟩) ∧
    (function ≠ "" →
      dtFile true now pid stack calldepth function
        = some ⟨testDateTime, "file.go#512", function, 69910⟩) := by
  refine ⟨?_, ?_, ?_⟩
  · intro hd hw
    unfold dtFile
    rw [if_neg (by rintro ⟨-, hlt⟩; omega)]
    simp only [Bool.false_eq_true, if_false]
    rw [hw]
  · intro hfn fp ln hw
    unfold dtFile
    rw [if_neg (by rintro ⟨h, -⟩; exact hfn h)]
    simp only [Bool.false_eq_true, if_false, if_neg hfn]
    rw [hw]
  · intro hfn
    unfold dtFile
    rw [if_neg (by rintro ⟨h, -⟩; exact hfn h)]
    simp only [if_neg hfn]
    rfl

/-- Witness for C10, matching the repository's own TestDtFile: an
explicit name "Explicit" with a too-deep walk still comes back as
"missing" with "unknown.go#0:", while a successful walk keeps it. -/
theorem c10_explicit_name_discarded_witness :
    dtFile false "n" 2 [] 5 "Explicit"
      = some ⟨"n", "unknown.go#0:", "missing", 2⟩ ∧
    dtFile true "n" 2 [] 5 "Explicit"
      = some ⟨testDateTime, "file.go#512", "Explicit", 69910⟩ :=
  ⟨(c10_explicit_name_discarded_on_walk_failure "n" 2 [] 5 "Explicit").1
      (by decide) rfl,
   (c10_explicit_name_discarded_on_walk_failure "n" 2 [] 5 "Explicit").2.2
      (by decide)⟩

end GoLog
